import Mathlib

/-!
Shallow embedding of the Mir consensus adapter of `consensus-shipyard/eudico`
(packages `chain/consensus/mir` and `eudico-core/fxmodules`), together with
theorems settling the specification claims about it.

Conventions of the embedding:
* Go `[]byte` values are `List Nat`; Go strings are Lean `String`s.
* Chain heights (`abi.ChainEpoch`, `int64`) and Mir epoch numbers are `Int`.
* Go maps are embedded as functions into `Option _` (a key is "live" when the
  function returns `some _`); maps built by iterated insertion keyed by
  validator id are embedded as association lists with last-write-wins insert.
* Fallible Go functions return `Except`/`Option`.
* External libraries that the adapter only passes data through (multiaddr
  syntax validation, SHA-256/CID hashing, CBOR serialization) are abstracted:
  multiaddr parsing is treated as total, and hashing/serialization are
  embedded as injective length-prefixed encodings, which preserves exactly
  the properties the adapter relies on (determinism and self-delimiting
  non-empty output).
-/

namespace EudicoMir

/-- Go `[]byte`. -/
abbrev Bytes := List Nat

/-- Mir node identifier (`t.NodeID`): the string form of the validator address. -/
abbrev NodeID := String

/-- Mir node network address (multiaddr, kept as its string form). -/
abbrev NodeAddress := String

/-- Abstract block CID. -/
abbrev BlockCid := Nat

/-- A validator: chain address plus network address
(`chain/consensus/mir/validator.go`, `type Validator struct`). -/
structure Validator where
  addr : String
  netAddr : String
deriving DecidableEq, Repr

/-- `Validator.ID()`: the string form of the address. -/
def Validator.ID (v : Validator) : String := v.addr

/-- Length-prefixed encoding of a string into bytes (abstracts the CBOR
encoding of one field: deterministic, self-delimiting, non-empty). -/
def strBytes (s : String) : Bytes := s.length :: s.toList.map Char.toNat

/-- `Validator.Bytes()`: canonical encoding of a validator
(abstracts `MarshalCBOR`; deterministic and injective). -/
def Validator.bytes (v : Validator) : Bytes := strBytes v.addr ++ strBytes v.netAddr

/-- An ordered validator set (`type ValidatorSet struct { Validators []Validator }`). -/
structure ValidatorSet where
  validators : List Validator
deriving DecidableEq, Repr

/-- `ValidatorSet.Size()`. -/
def ValidatorSet.size (s : ValidatorSet) : Nat := s.validators.length

/-- `ValidatorSet.Equal` with its two nil-receiver branches
(`consensus.go`: `func (set *ValidatorSet) Equal(o *ValidatorSet) bool`).
A Go nil pointer is `none`.  Note the source's second branch:
`if set == nil || o == nil { return true }`. -/
def ValidatorSet.Equal : Option ValidatorSet → Option ValidatorSet → Bool
  | none, none => true
  | none, some _ => true
  | some _, none => true
  | some s, some o =>
      if s.size != o.size then false
      else (s.validators.zip o.validators).all fun p => p.1 == p.2

/-- `ValidatorSet.Hash()`: hash of the concatenation of the canonical
encoding of each validator, in order (`u.Hash` / CIDv0 wrapping abstracted
as the identity on the concatenation, which is injective for the
self-delimiting per-validator encodings). -/
def ValidatorSet.contentHash (s : ValidatorSet) : Bytes :=
  (s.validators.map Validator.bytes).flatten

/-- Association map from node id to network address, as built by Go
`map[t.NodeID]t.NodeAddress` insertions (last write wins, key set deduplicated). -/
abbrev AssocMap := List (NodeID × NodeAddress)

/-- Insert with Go map semantics: overwrite an existing key, else append. -/
def mapInsert (m : AssocMap) (k : NodeID) (v : NodeAddress) : AssocMap :=
  if m.any (fun p => p.1 == k) then m.map (fun p => if p.1 == k then (k, v) else p)
  else m ++ [(k, v)]

/-- `validatorsMembership(validators)`: builds the node-id → address map
(multiaddr syntax validation by the external library is abstracted as total;
the adapter never inspects the parsed value, only its string form). -/
def validatorsMembership (vs : List Validator) : AssocMap :=
  vs.foldl (fun m v => mapInsert m v.ID v.netAddr) []

/-- `maxFaulty(n) = (n-1)/3` (`state_manager.go`). For `n = 0` Go computes
`(-1)/3 = 0` (truncated division), which agrees with Nat subtraction. -/
def maxFaulty (n : Nat) : Nat := (n - 1) / 3

/-- `weakQuorum(n) = maxFaulty(n) + 1` (`state_manager.go`). -/
def weakQuorum (n : Nat) : Nat := maxFaulty n + 1

/-- Checkpoint parent metadata (`type ParentMeta`). -/
structure ParentMeta where
  height : Int
  cid : BlockCid
deriving DecidableEq, Repr

/-- Application checkpoint (`type Checkpoint struct { Height; Parent; BlockCids }`). -/
structure Checkpoint where
  height : Int
  parent : ParentMeta
  blockCids : List BlockCid
deriving DecidableEq, Repr

/-- Mir stable checkpoint (engine structure, opaque to the adapter): the
embedded application snapshot bytes and the BFT certificate bytes. -/
structure StableCheckpoint where
  snapshotAppData : Bytes
  certData : Bytes
deriving DecidableEq, Repr

/-- The `StateManager` fields the claims are about (`state_manager.go`).
`configOffset` embeds the global `ConfigOffset` constant (the look-ahead `K`)
and `segmentLength` the manager's segment length, both configuration values
whose definitions live outside the shimmed files. -/
structure SMState where
  configOffset : Nat
  segmentLength : Nat
  currentEpoch : Int
  memberships : Int → Option AssocMap
  reconfigurationVotes : Int → Option (Bytes → Nat)
  prevCheckpoint : ParentMeta

/-- Initial memberships table of `NewStateManager`: epochs `0 .. ConfigOffset+1`
all mapped to the initial membership. -/
def initMemberships (k : Nat) (initial : AssocMap) : Int → Option AssocMap :=
  fun e => if 0 ≤ e ∧ e ≤ (k : Int) + 1 then some initial else none

/-- Vote count recorded for hash key `h` in epoch `e` (Go reads of the nested
`map[t.EpochNr]map[string]int` default to zero for absent entries). -/
def SMState.voteCount (s : SMState) (e : Int) (h : Bytes) : Nat :=
  ((s.reconfigurationVotes e).getD (fun _ => 0)) h

/-- `UpdateAndCheckVotes`: ensure the current epoch's vote map exists,
increment the counter for the set's hash, and report whether the new count
reaches the weak quorum of the current membership size. -/
def SMState.UpdateAndCheckVotes (s : SMState) (valSet : ValidatorSet) : Bool × SMState :=
  let h := valSet.contentHash
  let inner := (s.reconfigurationVotes s.currentEpoch).getD (fun _ => 0)
  let inner' := fun k => if k = h then inner k + 1 else inner k
  let s' := { s with reconfigurationVotes :=
    fun e => if e = s.currentEpoch then some inner' else s.reconfigurationVotes e }
  let votes := inner' h
  let nodes := ((s.memberships s.currentEpoch).getD []).length
  if votes < weakQuorum nodes then (false, s') else (true, s')

/-- `UpdateNextMembership`: overwrite the pending membership slot at
`currentEpoch + ConfigOffset + 1` with the membership built from the set. -/
def SMState.UpdateNextMembership (s : SMState) (valSet : ValidatorSet) : SMState :=
  { s with memberships :=
      fun e => if e = s.currentEpoch + (s.configOffset : Int) + 1
               then some (validatorsMembership valSet.validators)
               else s.memberships e }

/-- `applyConfigMsg`: vote for the decoded set and, when the vote reaches a
weak quorum, write it as the pending membership (CBOR decoding of the request
payload is abstracted: the input is the decoded `ValidatorSet`). -/
def SMState.applyConfigMsg (s : SMState) (valSet : ValidatorSet) : SMState :=
  let r := s.UpdateAndCheckVotes valSet
  if r.1 then r.2.UpdateNextMembership valSet else r.2

/-- The pending membership slot at `currentEpoch + ConfigOffset + 1`. -/
def SMState.pendingMembership (s : SMState) : Option AssocMap :=
  s.memberships (s.currentEpoch + (s.configOffset : Int) + 1)

/-- `NewEpoch(nr)` as in the second `StateManager` variant of
`state_manager.go` (the one that garbage-collects): sanity-check
`nr == currentEpoch + 1` (error otherwise, state untouched), copy the
membership at `nr + ConfigOffset` into the fresh slot `nr + ConfigOffset + 1`,
advance `currentEpoch`, and delete the membership and vote record of the old
epoch `nr - 1`.  A missing source slot reads as the empty map (`maputil.Copy`
of a Go nil map).  Returns the new membership and the updated state. -/
def SMState.NewEpoch (s : SMState) (nr : Int) : Option (AssocMap × SMState) :=
  if nr ≠ s.currentEpoch + 1 then none
  else
    let newMembership := (s.memberships (nr + (s.configOffset : Int))).getD []
    let oldEpoch := s.currentEpoch
    some (newMembership,
      { s with
        currentEpoch := nr
        memberships := fun e =>
          if e = oldEpoch then none
          else if e = nr + (s.configOffset : Int) + 1 then some newMembership
          else s.memberships e
        reconfigurationVotes := fun e =>
          if e = oldEpoch then none else s.reconfigurationVotes e })

/-- `NewEpoch(nr)` as in the first `StateManager` variant of
`state_manager.go`: identical, except that the `delete(sm.memberships, oldEpoch)`
and `delete(sm.reconfigurationVotes, oldEpoch)` lines are commented out, so
nothing is ever dropped. -/
def SMState.NewEpochV1 (s : SMState) (nr : Int) : Option (AssocMap × SMState) :=
  if nr ≠ s.currentEpoch + 1 then none
  else
    let newMembership := (s.memberships (nr + (s.configOffset : Int))).getD []
    some (newMembership,
      { s with
        currentEpoch := nr
        memberships := fun e =>
          if e = nr + (s.configOffset : Int) + 1 then some newMembership
          else s.memberships e })

/-- `GetCheckpointPeriod()`: segment length times the size of the current
epoch's membership (a missing entry reads as size 0, Go's `len` of a nil map). -/
def SMState.GetCheckpointPeriod (s : SMState) : Int :=
  ((s.segmentLength * ((s.memberships s.currentEpoch).getD []).length : Nat) : Int)

/-- The block-CID collection loop of `Snapshot()`: walk `i` from the start
value down to `p` inclusive, collecting the single block CID at each height
(`ChainGetTipSetByHeight`, abstracted as the total function `chain`). -/
def collectCids (chain : Int → BlockCid) (p : Int) (i : Int) : List BlockCid :=
  if i < p then []
  else chain i :: collectCids chain p (i - 1)
termination_by (i + 1 - p).toNat
decreasing_by
  simp only [not_lt] at *
  omega

/-- `Snapshot()` (state-relevant content): target height is
`prevCheckpoint.Height + GetCheckpointPeriod()`; the checkpoint lists the
block CIDs from `Height - 1` down to `prevCheckpoint.Height` inclusive.
The `waitForBlock` polling wait affects timing only, not the returned value,
and CBOR encoding of the result is elided. -/
def SMState.Snapshot (s : SMState) (chain : Int → BlockCid) : Checkpoint :=
  let nextHeight := s.prevCheckpoint.height + s.GetCheckpointPeriod
  { height := nextHeight
    parent := s.prevCheckpoint
    blockCids := collectCids chain s.prevCheckpoint.height (nextHeight - 1) }

/-! ### Block headers, templates, and validation (`consensus.go`) -/

/-- Wire-level election proof (`ltypes.ElectionProof`): a win count and an
optional VRF proof byte string (`none` embeds Go `nil`). -/
structure ElectionProof where
  winCount : Int
  vrfProof : Option Bytes
deriving DecidableEq, Repr

/-- Wire-level ticket (`ltypes.Ticket`). -/
structure Ticket where
  vrfProof : Option Bytes
deriving DecidableEq, Repr

/-- Filecoin address, reduced to its protocol tag and an abstract payload. -/
structure Address where
  protocol : Nat
  payload : Nat
deriving DecidableEq, Repr

/-- The ID-address protocol tag (`address.ID`). -/
def idProtocol : Nat := 0

/-- `builtin.SystemActorAddr` (the ID address `f00`). -/
def systemActorAddr : Address := { protocol := idProtocol, payload := 0 }

/-- The block-header fields inspected by the Mir consensus adapter. -/
structure BlockHeader where
  miner : Address
  parents : List BlockCid
  ticket : Ticket
  electionProof : ElectionProof
  height : Int
  timestamp : Int
  blockSig : Option Bytes
  blsAggregate : Option Bytes
  parentWeight : Int
deriving DecidableEq, Repr

/-- The block-template fields the adapter fills in `ApplyTXs`
(`lapi.BlockTemplate`). -/
structure BlockTemplate where
  miner : Address
  parents : List BlockCid
  ticket : Ticket
  eproof : ElectionProof
  epoch : Int
  timestamp : Int
deriving DecidableEq, Repr

/-- Modelled from the spec: `CertAsElectionProof` is not under the shimmed
sources (only its callers are); per §4.2.1/§6 it serializes the checkpoint's
engine certificate into the `ElectionProof` slot.  Serialization is embedded
as a length-prefixed (hence non-empty, non-nil) encoding. -/
def CertAsElectionProof (ch : StableCheckpoint) : ElectionProof :=
  { winCount := 0, vrfProof := some (ch.certData.length :: ch.certData) }

/-- Modelled from the spec: `CheckpointAsVRFProof` is not under the shimmed
sources; per §4.2.1/§6 it serializes the checkpoint content into the
`Ticket` slot, again as a non-empty encoding. -/
def CheckpointAsVRFProof (ch : StableCheckpoint) : Ticket :=
  { vrfProof := some (ch.snapshotAppData.length :: ch.snapshotAppData) }

/-- The block template built by `ApplyTXs` (`state_manager.go`): miner is the
system actor, epoch is `base.Height() + 1`, the timestamp is the wall clock
(`uint64(time.Now().Unix())`, here the free parameter `wallClock`), and the
ticket/election-proof slots are both nil unless a checkpoint is pending in
`NextCheckpoint`, in which case both are filled from it. -/
def applyTXsTemplate (baseHeight : Int) (baseKey : List BlockCid) (wallClock : Int)
    (pending : Option StableCheckpoint) : BlockTemplate :=
  let vrfCheckpoint : Ticket := { vrfProof := none }
  let eproofCheckpoint : ElectionProof := { winCount := 0, vrfProof := none }
  match pending with
  | none =>
      { miner := systemActorAddr, parents := baseKey, ticket := vrfCheckpoint
        eproof := eproofCheckpoint, epoch := baseHeight + 1, timestamp := wallClock }
  | some ch =>
      { miner := systemActorAddr, parents := baseKey, ticket := CheckpointAsVRFProof ch
        eproof := CertAsElectionProof ch, epoch := baseHeight + 1, timestamp := wallClock }

/-- `Mir.CreateBlock` header assembly (`consensus.go`): miner is the system
actor, the ticket and election proof are taken from the template, height is
the template epoch, and the timestamp is `uint64(bt.Epoch)` — the epoch
itself, NOT the template's timestamp.  Mir blocks carry no block signature;
the BLS aggregate is attached by the shared message-assembly helper (a
parameter here) and is always present.  State-root fields are elided. -/
def CreateBlock (bt : BlockTemplate) (blsAgg : Bytes) (parentWeight : Int) : BlockHeader :=
  { miner := systemActorAddr
    parents := bt.parents
    ticket := bt.ticket
    electionProof := bt.eproof
    height := bt.epoch
    timestamp := bt.epoch
    blockSig := none
    blsAggregate := some blsAgg
    parentWeight := parentWeight }

/-- `blockSanityChecks` (`consensus.go`), translated check by check in source
order. -/
def blockSanityChecks (h : BlockHeader) : Except String Unit :=
  if h.electionProof.winCount != 0 then
    .error "mir expects a zero wincount"
  else if h.ticket.vrfProof.isSome && h.electionProof.vrfProof.isNone then
    .error "both VRFProofs should be nil, the block includes a checkpoint"
  else if h.ticket.vrfProof.isNone && h.electionProof.vrfProof.isSome then
    .error "if there is no ticket, then the block doesn't include a checkpoint"
  else if h.blockSig.isSome then
    .error "mir blocks have no signature"
  else if h.blsAggregate.isNone then
    .error "block had nil bls aggregate signature"
  else if h.parents.length != 1 then
    .error "must have 1 parent"
  else if h.miner.protocol != idProtocol then
    .error "block had non-ID miner address"
  else if h.miner != systemActorAddr then
    .error "mir blocks include the systemActor addr as miner"
  else .ok ()

/-- The synchronous checks of `Mir.ValidateBlock` (`consensus.go`): header
sanity, height strictly above the parent, timestamp equal to the height, and
parent weight equal to the store-computed weight.  The asynchronous
checkpoint/cache/signature checks call external components and are elided. -/
def ValidateBlock (h : BlockHeader) (parentHeight : Int) (computedWeight : Int) :
    Except String Unit :=
  match blockSanityChecks h with
  | .error e => .error e
  | .ok _ =>
    if h.height ≤ parentHeight then
      .error "block height not greater than parent height"
    else if h.timestamp != h.height then
      .error "Mir blocks should include the block height as timestamp"
    else if computedWeight != h.parentWeight then
      .error "parrent weight different"
    else .ok ()

/-- The validator rule of §4.9: the ticket and election-proof slots are
either both populated (checkpoint block) or both empty (ordinary block). -/
def checkpointSlotsConsistent (h : BlockHeader) : Prop :=
  (h.ticket.vrfProof.isSome ∧ h.electionProof.vrfProof.isSome) ∨
  (h.ticket.vrfProof = none ∧ h.electionProof.vrfProof = none)

/-! ### The `NextCheckpoint` capacity-1 channel (`state_manager.go`) -/

/-- `pollCheckpoint`: non-blocking receive on the capacity-1 `NextCheckpoint`
channel.  Returns the pending checkpoint (emptying the slot) or `none`
without blocking when the slot is empty.  First component: the returned
value; second: the channel contents afterwards. -/
def pollCheckpoint (slot : Option StableCheckpoint) :
    Option StableCheckpoint × Option StableCheckpoint :=
  match slot with
  | some ch => (some ch, none)
  | none => (none, none)

/-- `releaseNextCheckpointChan`: non-blocking receive that discards the value;
removes at most one pending checkpoint. -/
def releaseNextCheckpointChan (slot : Option StableCheckpoint) :
    Option StableCheckpoint :=
  match slot with
  | some _ => none
  | none => none

/-- One interaction with the `NextCheckpoint` channel: a (completing) send by
`deliverCheckpoint`, a `pollCheckpoint` by `ApplyTXs`, or a
`releaseNextCheckpointChan` by `RestoreState`. -/
inductive ChanOp where
  | deliver : StableCheckpoint → ChanOp
  | poll : ChanOp
  | release : ChanOp
deriving DecidableEq, Repr

/-- Channel history: the slot contents plus how many sends completed, how
many polls returned a checkpoint (each such poll is what embeds a checkpoint
in a block), and how many checkpoints `releaseNextCheckpointChan` removed. -/
structure ChanTrace where
  slot : Option StableCheckpoint
  delivered : Nat
  polled : Nat
  released : Nat
deriving DecidableEq, Repr

/-- Channel step semantics.  The channel has capacity 1, so the blocking send
in `deliverCheckpoint` completes only when the slot is empty (a send against
a full slot stays blocked and delivers nothing); `pollCheckpoint` and
`releaseNextCheckpointChan` consume the pending value if there is one and
otherwise return immediately. -/
def chanStep (st : ChanTrace) : ChanOp → ChanTrace
  | .deliver ch =>
      match st.slot with
      | none => { st with slot := some ch, delivered := st.delivered + 1 }
      | some _ => st
  | .poll =>
      match st.slot with
      | some _ => { st with slot := (pollCheckpoint st.slot).2, polled := st.polled + 1 }
      | none => st
  | .release =>
      match st.slot with
      | some _ => { st with slot := releaseNextCheckpointChan st.slot, released := st.released + 1 }
      | none => st

/-- Run a sequence of channel interactions from the freshly-made empty
channel (`make(chan *checkpoint.StableCheckpoint, 1)`). -/
def chanRun (ops : List ChanOp) : ChanTrace :=
  ops.foldl chanStep { slot := none, delivered := 0, polled := 0, released := 0 }

/-! ### Startup membership gate (`eudico-core/fxmodules/invokes.go`) -/

/-- Membership info returned by a membership source
(`membership.Info`: validator set, minimum validator count, genesis epoch). -/
structure Info where
  validatorSet : ValidatorSet
  minValidators : Nat
  genesisEpoch : Int
deriving DecidableEq, Repr

/-- The error outcomes of `getMembershipInfo`.  `readerFailed` and
`emptyValidatorSet` embed `fmt.Errorf` values that are NOT either sentinel
(`errors.Is` against both sentinels is false for them);
`minNumValidatorNotReached` and `missingOwnIdentityInMembership` are the two
retryable sentinel errors. -/
inductive MembershipErr where
  | readerFailed : String → MembershipErr
  | emptyValidatorSet : MembershipErr
  | minNumValidatorNotReached : MembershipErr
  | missingOwnIdentityInMembership : MembershipErr
deriving DecidableEq, Repr

/-- `errors.Is(err, ErrMissingOwnIdentityInMembership) || errors.Is(err, ErrMinNumValidatorNotReached)`. -/
def isRetrySentinel (e : MembershipErr) : Bool :=
  e == .minNumValidatorNotReached || e == .missingOwnIdentityInMembership

/-- `getMembershipInfo(id, r)`: wrap a reader failure; reject an empty
validator set; reject a set smaller than `MinValidators` with the
min-validators sentinel; build the node membership (multiaddr validation
abstracted as total); require the node's own id to be a key of it.
The input is the result of `r.GetMembershipInfo()`. -/
def getMembershipInfo (id : String) (readResult : Except String Info) :
    Except MembershipErr (Info × AssocMap) :=
  match readResult with
  | .error e => .error (.readerFailed e)
  | .ok info =>
    let valSize := info.validatorSet.size
    if valSize == 0 then .error .emptyValidatorSet
    else if info.minValidators > valSize then .error .minNumValidatorNotReached
    else
      let m := validatorsMembership info.validatorSet.validators
      if m.any (fun p => p.1 == id) then .ok (info, m)
      else .error .missingOwnIdentityInMembership

/-- Terminal outcomes of `waitForMembershipInfo`. -/
inductive WaitOutcome where
  | success : Info → AssocMap → WaitOutcome
  | timedOut : WaitOutcome
  | aborted : MembershipErr → WaitOutcome
deriving DecidableEq, Repr

/-- `waitForMembershipInfo`: poll the source once per reading-interval tick;
keep polling on either retryable sentinel, abort on any other error, succeed
on success.  The input list holds the source's answer at each tick before the
total timeout; exhausting it is the context deadline expiring, which returns
`ErrWaitForMembershipTimeout` (`timedOut`). -/
def waitForMembershipInfo (id : String) : List (Except String Info) → WaitOutcome
  | [] => .timedOut
  | r :: rest =>
    match getMembershipInfo id r with
    | .ok (info, m) => .success info m
    | .error e =>
        if isRetrySentinel e then waitForMembershipInfo id rest
        else .aborted e

/-! ### Concrete fixtures used by the theorems -/

/-- A concrete validator with distinct address and network address. -/
def exVal (i : Nat) : Validator := { addr := "v" ++ toString i, netAddr := "a" ++ toString i }

/-- A concrete membership of `n` validators. -/
def exMembership (n : Nat) : AssocMap :=
  (List.range n).map fun i => ((exVal i).ID, (exVal i).netAddr)

/-- A fresh `StateManager` state with `ConfigOffset = 1`, segment length 2,
current epoch 0, `n` validators in every initial membership slot, and no
votes recorded — the state `NewStateManager` builds. -/
def exState (n : Nat) : SMState :=
  { configOffset := 1
    segmentLength := 2
    currentEpoch := 0
    memberships := initMemberships 1 (exMembership n)
    reconfigurationVotes := fun _ => none
    prevCheckpoint := { height := 1, cid := 0 } }

/-- A concrete proposed validator set of five validators, distinct from every
initial membership used in the fixtures. -/
def exNewSet : ValidatorSet := ⟨[exVal 10, exVal 11, exVal 12, exVal 13, exVal 14]⟩

/-! ### Claim theorems -/

/-- C1: a `ConfigurationRequest` carrying validator set `S` is written as the
pending membership for epoch `current + K + 1` exactly when the number of
votes recorded for `hash(S)` in the current epoch reaches the weak quorum
`⌊(n-1)/3⌋ + 1` of the current membership size `n`; in particular, with
`n = 4` one vote does not update the pending membership and two votes do,
and with `n = 7` three votes do (two do not). -/
theorem C1_config_vote_weak_quorum :
    (∀ (s : SMState) (S : ValidatorSet),
      (s.applyConfigMsg S).voteCount s.currentEpoch S.contentHash
          = s.voteCount s.currentEpoch S.contentHash + 1 ∧
      weakQuorum ((s.memberships s.currentEpoch).getD []).length
          = (((s.memberships s.currentEpoch).getD []).length - 1) / 3 + 1 ∧
      (s.applyConfigMsg S).pendingMembership =
        (if weakQuorum ((s.memberships s.currentEpoch).getD []).length
              ≤ s.voteCount s.currentEpoch S.contentHash + 1
         then some (validatorsMembership S.validators)
         else s.pendingMembership)) ∧
    ((exState 4).applyConfigMsg exNewSet).pendingMembership
        = (exState 4).pendingMembership ∧
    (((exState 4).applyConfigMsg exNewSet).applyConfigMsg exNewSet).pendingMembership
        = some (validatorsMembership exNewSet.validators) ∧
    (((exState 7).applyConfigMsg exNewSet).applyConfigMsg exNewSet).pendingMembership
        = (exState 7).pendingMembership ∧
    ((((exState 7).applyConfigMsg exNewSet).applyConfigMsg exNewSet).applyConfigMsg
        exNewSet).pendingMembership
        = some (validatorsMembership exNewSet.validators) := by
  refine ⟨fun s S => ?_, by decide, by decide, by decide, by decide⟩
  by_cases hq : (s.reconfigurationVotes s.currentEpoch).getD (fun _ => 0) S.contentHash + 1 <
      weakQuorum (((s.memberships s.currentEpoch).getD []).length)
  · -- votes below the weak quorum: the pending membership is untouched
    refine ⟨?_, by simp [weakQuorum, maxFaulty], ?_⟩
    · simp [SMState.applyConfigMsg, SMState.UpdateAndCheckVotes,
        SMState.UpdateNextMembership, SMState.voteCount, SMState.pendingMembership, hq]
    · simp [SMState.applyConfigMsg, SMState.UpdateAndCheckVotes,
        SMState.UpdateNextMembership, SMState.voteCount, SMState.pendingMembership, hq]
      split
      · exfalso; omega
      · rfl
  · -- weak quorum reached: the pending membership is overwritten with `S`
    refine ⟨?_, by simp [weakQuorum, maxFaulty], ?_⟩
    · simp [SMState.applyConfigMsg, SMState.UpdateAndCheckVotes,
        SMState.UpdateNextMembership, SMState.voteCount, SMState.pendingMembership, hq]
    · simp [SMState.applyConfigMsg, SMState.UpdateAndCheckVotes,
        SMState.UpdateNextMembership, SMState.voteCount, SMState.pendingMembership, hq]
      split
      · rfl
      · exfalso; omega

/-- C2 (evaluation at the failing input): applying the same
`ConfigurationRequest` twice within one epoch increments the recorded vote
count for the set's hash from 0 to 2 — `UpdateAndCheckVotes` keeps a bare
per-hash counter and never reads the voter id, so there is no deduplication
by voter. -/
theorem C2_duplicate_vote_counted_twice :
    (((exState 4).applyConfigMsg exNewSet).applyConfigMsg exNewSet).voteCount 0
        exNewSet.contentHash = 2 ∧
    (exState 4).voteCount 0 exNewSet.contentHash = 0 := by decide

/-- C8 (evaluation at the failing input): `ValidatorSet.Equal` applied to a
nil set and a non-nil, non-empty set returns `true` — its second nil branch
(`if set == nil || o == nil`) returns `true` instead of `false`, so a nil
set and a non-nil set compare as equal. -/
theorem C8_nil_set_reported_equal :
    ValidatorSet.Equal none (some ⟨[{ addr := "t1abc", netAddr := "ma1" }]⟩) = true ∧
    ValidatorSet.Equal (some ⟨[{ addr := "t1abc", netAddr := "ma1" }]⟩) none = true ∧
    (⟨[{ addr := "t1abc", netAddr := "ma1" }]⟩ : ValidatorSet).size ≠ 0 := by decide

/-- C10: on a fetched validator set of size zero, `getMembershipInfo` fails
with the empty-validator-set error, which is distinct from both retryable
sentinels — whatever `MinValidators` is, zero included — so
`waitForMembershipInfo` aborts immediately instead of continuing to poll. -/
theorem C10_empty_set_aborts (id : String) (mv : Nat) (ge : Int)
    (rest : List (Except String Info)) :
    getMembershipInfo id (.ok { validatorSet := ⟨[]⟩, minValidators := mv, genesisEpoch := ge })
        = .error .emptyValidatorSet ∧
    isRetrySentinel .emptyValidatorSet = false ∧
    MembershipErr.emptyValidatorSet ≠ .minNumValidatorNotReached ∧
    MembershipErr.emptyValidatorSet ≠ .missingOwnIdentityInMembership ∧
    waitForMembershipInfo id
        (.ok { validatorSet := ⟨[]⟩, minValidators := mv, genesisEpoch := ge } :: rest)
        = .aborted .emptyValidatorSet := by
  refine ⟨rfl, rfl, by decide, by decide, ?_⟩
  simp [waitForMembershipInfo, getMembershipInfo, isRetrySentinel, ValidatorSet.size,
    validatorsMembership]

/-- C3 (counterexample): from the freshly initialized state with `K = 1` and
current epoch 0, `NewEpoch(1)` succeeds, but afterwards the memberships map
does NOT cover epoch `nr - 1 = 0`: the garbage-collecting variant deletes
exactly the old epoch `nr - 1` (so the live window is `nr … nr+K+1`, not
`nr-1 … nr+K+1`); and in the first (non-GC) variant nothing is ever dropped:
after `NewEpoch(1)` and `NewEpoch(2)`, epoch `0 < current - 1` is still live. -/
theorem C3_window_counterexample :
    ((exState 4).NewEpoch 1).map (fun r => r.2.memberships 0) = some none ∧
    (((exState 4).NewEpochV1 1).bind (fun r => r.2.NewEpochV1 2)).map
        (fun r => (r.2.memberships 0).isSome) = some true := by decide

/-- C3 (amended): `NewEpoch(nr)` errors (and the state is untouched) unless
`nr = current + 1`; on success it returns a copy of the membership at
`nr + K`, stores it at `nr + K + 1`, advances `current` to `nr`, and drops
the membership and vote record for epoch `nr - 1`; every other epoch's entry
is unchanged, and if the live window was exactly `nr-1 … nr+K` before the
call it is exactly the `K + 2` epochs `nr … nr+K+1` after it. -/
theorem C3_newEpoch_window (s : SMState) (nr : Int) :
    (nr ≠ s.currentEpoch + 1 → s.NewEpoch nr = none) ∧
    (nr = s.currentEpoch + 1 →
      (s.NewEpoch nr).map Prod.fst
          = some ((s.memberships (nr + (s.configOffset : Int))).getD []) ∧
      (s.NewEpoch nr).map (fun r => r.2.currentEpoch) = some nr ∧
      (s.NewEpoch nr).map (fun r => r.2.memberships (nr + (s.configOffset : Int) + 1))
          = some (some ((s.memberships (nr + (s.configOffset : Int))).getD [])) ∧
      (s.NewEpoch nr).map (fun r => r.2.memberships (nr - 1)) = some none ∧
      (s.NewEpoch nr).map (fun r => r.2.reconfigurationVotes (nr - 1)) = some none ∧
      (∀ e : Int, e ≠ nr - 1 → e ≠ nr + (s.configOffset : Int) + 1 →
        (s.NewEpoch nr).map (fun r => r.2.memberships e) = some (s.memberships e)) ∧
      ((∀ e : Int, (s.memberships e).isSome
            ↔ nr - 1 ≤ e ∧ e ≤ nr + (s.configOffset : Int)) →
        ∀ e : Int, ((s.NewEpoch nr).map (fun r => (r.2.memberships e).isSome) = some true
            ↔ nr ≤ e ∧ e ≤ nr + (s.configOffset : Int) + 1))) := by
  constructor
  · intro hne
    simp [SMState.NewEpoch, hne]
  · intro hnr
    subst hnr
    refine ⟨?_, ?_, ?_, ?_, ?_, ?_, ?_⟩
    · simp [SMState.NewEpoch]
    · simp [SMState.NewEpoch]
    · simp [SMState.NewEpoch]
      omega
    · simp [SMState.NewEpoch]
    · simp [SMState.NewEpoch]
    · intro e he1 he2
      have h1 : ¬(e = s.currentEpoch) := by omega
      have h2 : ¬(e = s.currentEpoch + 1 + (s.configOffset : Int) + 1) := by omega
      simp [SMState.NewEpoch, h1, h2]
    · intro hcov e
      by_cases h1 : e = s.currentEpoch
      · simp [SMState.NewEpoch, h1]
      · by_cases h2 : e = s.currentEpoch + 1 + (s.configOffset : Int) + 1
        · simp [SMState.NewEpoch, h1, h2]
          omega
        · simp [SMState.NewEpoch, h1, h2]
          rw [hcov e]
          omega

/-- C3 (witness): the amended theorem applied at the freshly initialized
state with `K = 1` and `nr = 1`. -/
theorem C3_newEpoch_window_witness :
    ((exState 4).NewEpoch 1).map (fun r => r.2.currentEpoch) = some 1 ∧
    (((exState 4).NewEpoch 1).map (fun r => (r.2.memberships 3).isSome) = some true ↔
      (1 : Int) ≤ 3 ∧ (3 : Int) ≤ 1 + ((exState 4).configOffset : Int) + 1) := by
  have hcov : ∀ e : Int, ((exState 4).memberships e).isSome
      ↔ (1 : Int) - 1 ≤ e ∧ e ≤ 1 + ((exState 4).configOffset : Int) := by
    intro e
    simp only [exState, initMemberships]
    split
    · next h => simp; omega
    · next h => simp; omega
  have h := (C3_newEpoch_window (exState 4) 1).2 (by decide)
  exact ⟨h.2.1, h.2.2.2.2.2.2 hcov 3⟩

/-- C4: every block header assembled for a Mir batch has the system actor as
miner and its height as timestamp — deterministic across validators, for any
wall-clock value the `StateManager` puts in the block template — and block
validation accepts only headers whose timestamp equals their height. -/
theorem C4_timestamp_is_height :
    (∀ (baseHeight : Int) (baseKey : List BlockCid) (wallClock wallClock' : Int)
        (pending : Option StableCheckpoint) (blsAgg : Bytes) (pw : Int),
      (CreateBlock (applyTXsTemplate baseHeight baseKey wallClock pending) blsAgg pw).miner
          = systemActorAddr ∧
      (CreateBlock (applyTXsTemplate baseHeight baseKey wallClock pending) blsAgg pw).timestamp
          = (CreateBlock (applyTXsTemplate baseHeight baseKey wallClock pending) blsAgg pw).height ∧
      (CreateBlock (applyTXsTemplate baseHeight baseKey wallClock pending) blsAgg pw).height
          = baseHeight + 1 ∧
      (applyTXsTemplate baseHeight baseKey wallClock pending).timestamp = wallClock ∧
      CreateBlock (applyTXsTemplate baseHeight baseKey wallClock' pending) blsAgg pw
          = CreateBlock (applyTXsTemplate baseHeight baseKey wallClock pending) blsAgg pw) ∧
    (∀ (h : BlockHeader) (parentHeight computedWeight : Int),
      ValidateBlock h parentHeight computedWeight = .ok () → h.timestamp = h.height) := by
  constructor
  · intro baseHeight baseKey wallClock wallClock' pending blsAgg pw
    cases pending <;> simp [CreateBlock, applyTXsTemplate]
  · intro h ph cw hok
    unfold ValidateBlock at hok
    cases hsan : blockSanityChecks h <;> rw [hsan] at hok
    · exact Except.noConfusion hok
    · split_ifs at hok with hh ht hw <;> try exact Except.noConfusion hok
      simpa using ht

/-- C4 (witness): a concrete block produced over base height 0 with a
wall-clock of 42 passes validation and has its height (1) as timestamp. -/
theorem C4_timestamp_is_height_witness :
    ValidateBlock (CreateBlock (applyTXsTemplate 0 [5] 42 none) [0] 1) 0 1 = .ok () ∧
    (CreateBlock (applyTXsTemplate 0 [5] 42 none) [0] 1).timestamp
        = (CreateBlock (applyTXsTemplate 0 [5] 42 none) [0] 1).height := by
  refine ⟨rfl, C4_timestamp_is_height.2 _ 0 1 rfl⟩

/-- The block-collection loop of `Snapshot()` in closed form: starting at
`p + per - 1` and walking down to `p`, it yields the images of the `per`
heights `p + per - 1, …, p`, most recent first. -/
theorem collectCids_range (chain : Int → BlockCid) (p : Int) :
    ∀ per : Nat, collectCids chain p (p + (per : Int) - 1)
        = (List.range per).map fun k : Nat => chain (p + (per : Int) - 1 - (k : Int)) := by
  intro per
  induction per with
  | zero =>
      rw [collectCids, if_pos (by push_cast; omega)]
      simp
  | succ n ih =>
      rw [collectCids]
      rw [if_neg (by push_cast; omega)]
      have hidx : p + ((n : Int) + 1) - 1 - 1 = p + (n : Int) - 1 := by ring
      rw [show ((n + 1 : Nat) : Int) = (n : Int) + 1 by push_cast; ring]
      rw [hidx, ih, List.range_succ_eq_map]
      simp only [List.map_cons, List.map_map, Nat.cast_zero, sub_zero]
      refine congrArg₂ List.cons (by ring_nf) ?_
      refine List.map_congr_left fun k _ => ?_
      simp only [Function.comp_apply]
      push_cast
      ring_nf

/-- C5: `Snapshot()` returns a checkpoint whose height is
`prevCheckpoint.Height + SegmentLength × |current membership|`, whose parent
is `prevCheckpoint`, and whose CID list has one entry per height from
`Height - 1` down to `prevCheckpoint.Height` inclusive, most recent first —
so its length is `Height - Parent.Height`. -/
theorem C5_snapshot_shape (s : SMState) (chain : Int → BlockCid) :
    (s.Snapshot chain).height
        = s.prevCheckpoint.height
          + ((s.segmentLength * ((s.memberships s.currentEpoch).getD []).length : Nat) : Int) ∧
    (s.Snapshot chain).parent = s.prevCheckpoint ∧
    (s.Snapshot chain).blockCids
        = (List.range (s.segmentLength * ((s.memberships s.currentEpoch).getD []).length)).map
            (fun k : Nat => chain ((s.Snapshot chain).height - 1 - (k : Int))) ∧
    ((s.Snapshot chain).blockCids.length : Int)
        = (s.Snapshot chain).height - (s.Snapshot chain).parent.height := by
  refine ⟨rfl, rfl, ?_, ?_⟩
  · simp only [SMState.Snapshot, SMState.GetCheckpointPeriod]
    exact collectCids_range chain s.prevCheckpoint.height
      (s.segmentLength * ((s.memberships s.currentEpoch).getD []).length)
  · simp only [SMState.Snapshot, SMState.GetCheckpointPeriod]
    rw [collectCids_range chain s.prevCheckpoint.height
      (s.segmentLength * ((s.memberships s.currentEpoch).getD []).length)]
    rw [List.length_map, List.length_range]
    ring

/-- C6: block sanity checking accepts a header only when the ticket and
election-proof VRF slots are both populated or both empty, and every header
assembled from an `ApplyTXs` template satisfies that rule: with a pending
checkpoint both slots carry its (non-empty) serializations, and with no
pending checkpoint both are nil. -/
theorem C6_slots_both_or_neither :
    (∀ h : BlockHeader, blockSanityChecks h = .ok () → checkpointSlotsConsistent h) ∧
    (∀ (baseHeight : Int) (baseKey : List BlockCid) (wallClock : Int)
        (pending : Option StableCheckpoint) (blsAgg : Bytes) (pw : Int),
      checkpointSlotsConsistent
          (CreateBlock (applyTXsTemplate baseHeight baseKey wallClock pending) blsAgg pw) ∧
      (pending = none →
        (CreateBlock (applyTXsTemplate baseHeight baseKey wallClock pending) blsAgg pw).ticket.vrfProof
            = none ∧
        (CreateBlock (applyTXsTemplate baseHeight baseKey wallClock pending)
            blsAgg pw).electionProof.vrfProof = none) ∧
      (∀ ch, pending = some ch →
        (CreateBlock (applyTXsTemplate baseHeight baseKey wallClock pending) blsAgg pw).ticket.vrfProof
            = some (ch.snapshotAppData.length :: ch.snapshotAppData) ∧
        (CreateBlock (applyTXsTemplate baseHeight baseKey wallClock pending)
            blsAgg pw).electionProof.vrfProof = some (ch.certData.length :: ch.certData))) := by
  constructor
  · intro h hok
    unfold blockSanityChecks at hok
    split_ifs at hok with h1 h2 h3 h4 h5 h6 h7 h8 <;>
      try exact Except.noConfusion hok
    cases ht : h.ticket.vrfProof <;> cases he : h.electionProof.vrfProof <;>
      simp_all [checkpointSlotsConsistent]
  · intro baseHeight baseKey wallClock pending blsAgg pw
    cases pending <;>
      simp [CreateBlock, applyTXsTemplate, CheckpointAsVRFProof, CertAsElectionProof,
        checkpointSlotsConsistent]

/-- C6 (witness): a checkpoint-free header from `ApplyTXs` passes the rule,
and a header carrying the concrete pending checkpoint
`{snapshot := [1], cert := [2]}` gets both slots populated from it. -/
theorem C6_slots_both_or_neither_witness :
    checkpointSlotsConsistent (CreateBlock (applyTXsTemplate 0 [5] 42 none) [0] 1) ∧
    (CreateBlock (applyTXsTemplate 0 [5] 42 (some ⟨[1], [2]⟩)) [0] 1).ticket.vrfProof
        = some [1, 1] ∧
    (CreateBlock (applyTXsTemplate 0 [5] 42 (some ⟨[1], [2]⟩)) [0] 1).electionProof.vrfProof
        = some [1, 2] := by
  refine ⟨C6_slots_both_or_neither.1 _ rfl, ?_⟩
  have h := (C6_slots_both_or_neither.2 0 [5] 42 (some ⟨[1], [2]⟩) [0] 1).2.2 ⟨[1], [2]⟩ rfl
  exact ⟨h.1, h.2⟩

/-- A fetched `Info` with an empty validator set and `MinValidators = 3`. -/
def infoEmptyMin3 : Info := { validatorSet := ⟨[]⟩, minValidators := 3, genesisEpoch := 0 }

/-- A fetched `Info` whose set size equals `MinValidators` exactly. -/
def infoExactMin2 : Info :=
  { validatorSet := ⟨[exVal 0, exVal 1]⟩, minValidators := 2, genesisEpoch := 0 }

/-- C7 (counterexample): with a fetched validator set of size 0 and
`MinValidators = 3`, `MinValidators` exceeds the set's size, yet the error
produced is the empty-set error, not the minimum-validators sentinel — and
`waitForMembershipInfo` therefore aborts instead of continuing to poll. -/
theorem C7_min_gate_counterexample :
    infoEmptyMin3.minValidators > infoEmptyMin3.validatorSet.size ∧
    getMembershipInfo "v0" (.ok infoEmptyMin3) = .error .emptyValidatorSet ∧
    MembershipErr.emptyValidatorSet ≠ .minNumValidatorNotReached ∧
    isRetrySentinel .emptyValidatorSet = false ∧
    waitForMembershipInfo "v0" [.ok infoEmptyMin3, .ok infoEmptyMin3]
        = .aborted .emptyValidatorSet := by
  exact ⟨by decide, rfl, by decide, by decide, rfl⟩

/-- C7 (amended): during startup, `waitForMembershipInfo` keeps polling at
the reading interval on either retryable sentinel (missing-own-identity or
minimum-validators-not-reached), returns any other error immediately, and
returns the timeout error when the total timeout elapses; the
minimum-validators sentinel is produced exactly when the fetched set is
non-empty and `MinValidators` exceeds its size, so a set of exactly
`MinValidators` validators never trips the minimum-validators gate. -/
theorem C7_membership_wait_gate :
    (∀ id : String, waitForMembershipInfo id [] = .timedOut) ∧
    (∀ (id : String) (r : Except String Info) (rest : List (Except String Info))
        (e : MembershipErr),
      getMembershipInfo id r = .error e → isRetrySentinel e = true →
        waitForMembershipInfo id (r :: rest) = waitForMembershipInfo id rest) ∧
    (∀ (id : String) (r : Except String Info) (rest : List (Except String Info))
        (e : MembershipErr),
      getMembershipInfo id r = .error e → isRetrySentinel e = false →
        waitForMembershipInfo id (r :: rest) = .aborted e) ∧
    (∀ (id : String) (r : Except String Info) (rest : List (Except String Info))
        (info : Info) (m : AssocMap),
      getMembershipInfo id r = .ok (info, m) →
        waitForMembershipInfo id (r :: rest) = .success info m) ∧
    (∀ (id : String) (info : Info),
      getMembershipInfo id (.ok info) = .error .minNumValidatorNotReached ↔
        info.validatorSet.size ≠ 0 ∧ info.minValidators > info.validatorSet.size) ∧
    (∀ (id : String) (info : Info),
      info.validatorSet.size = info.minValidators →
        getMembershipInfo id (.ok info) ≠ .error .minNumValidatorNotReached) := by
  refine ⟨fun id => rfl, ?_, ?_, ?_, ?_, ?_⟩
  · intro id r rest e hget hsent
    simp [waitForMembershipInfo, hget, hsent]
  · intro id r rest e hget hsent
    simp [waitForMembershipInfo, hget, hsent]
  · intro id r rest info m hget
    simp [waitForMembershipInfo, hget]
  · intro id info
    constructor
    · intro hmin
      simp only [getMembershipInfo] at hmin
      split_ifs at hmin with h0 h1 h2 <;> simp_all
    · intro hcond
      simp only [getMembershipInfo]
      rw [if_neg (by simpa using hcond.1), if_pos hcond.2]
  · intro id info heq
    simp only [getMembershipInfo]
    split_ifs with h0 h1 h2 <;> simp_all

/-- C7 (witness): the amended theorem applied at an empty tick list, and at a
set of exactly `MinValidators = 2` validators, which does not trip the gate. -/
theorem C7_membership_wait_gate_witness :
    waitForMembershipInfo "x" [] = .timedOut ∧
    getMembershipInfo "v0" (.ok infoExactMin2) ≠ .error .minNumValidatorNotReached := by
  exact ⟨C7_membership_wait_gate.1 "x",
    C7_membership_wait_gate.2.2.2.2.2 "v0" infoExactMin2 (by decide)⟩

/-- The channel-counting invariant: completed deliveries are accounted for by
block-embedding polls, restore-time releases, and the at-most-one pending
checkpoint in the slot. -/
def chanInv (st : ChanTrace) : Prop :=
  st.delivered = st.polled + st.released + (if st.slot.isSome then 1 else 0)

theorem chanStep_inv {st : ChanTrace} (h : chanInv st) (op : ChanOp) :
    chanInv (chanStep st op) := by
  cases op <;> cases hs : st.slot <;>
      simp_all [chanStep, chanInv, pollCheckpoint, releaseNextCheckpointChan, hs] <;>
    omega

theorem chanRun_foldl_inv (ops : List ChanOp) :
    ∀ st : ChanTrace, chanInv st → chanInv (ops.foldl chanStep st) := by
  induction ops with
  | nil => intro st h; simpa using h
  | cons op rest ih =>
      intro st h
      simpa using ih _ (chanStep_inv h op)

/-- C9: the `NextCheckpoint` channel holds at most one pending stable
checkpoint (it is the capacity-1 slot of the model); `pollCheckpoint` returns
the pending checkpoint and empties the slot, and returns `none` without
blocking when the slot is empty; `releaseNextCheckpointChan` removes at most
one pending checkpoint without blocking; and over every interaction history
the number of polls that returned a checkpoint (each of which is what embeds
one in a block) never exceeds the number of completed deliveries — each
delivered checkpoint is embedded in at most one block. -/
theorem C9_next_checkpoint_once :
    (∀ ch : StableCheckpoint, pollCheckpoint (some ch) = (some ch, none)) ∧
    pollCheckpoint none = (none, none) ∧
    (∀ ch : StableCheckpoint, releaseNextCheckpointChan (some ch) = none) ∧
    releaseNextCheckpointChan none = none ∧
    (∀ st : ChanTrace, (chanStep st .poll).slot = none) ∧
    (∀ ops : List ChanOp,
      (chanRun ops).delivered
          = (chanRun ops).polled + (chanRun ops).released
            + (if (chanRun ops).slot.isSome then 1 else 0) ∧
      (chanRun ops).polled ≤ (chanRun ops).delivered) := by
  refine ⟨fun ch => rfl, rfl, fun ch => rfl, rfl, ?_, ?_⟩
  · intro st
    cases hs : st.slot <;> simp [chanStep, pollCheckpoint, hs]
  · intro ops
    have h : chanInv (chanRun ops) := by
      simp only [chanRun]
      exact chanRun_foldl_inv ops _ (by simp [chanInv])
    refine ⟨h, ?_⟩
    unfold chanInv at h
    omega

end EudicoMir